import Mathlib

/-!
Verification of `flame_utils/io/output.py` from the `flame-utils` repository.

The module defines two functions:

* `convert_results(res, **kws)` — the Normalizer — which returns
  `[(i, BeamState(s)) for (i, s) in res]`, and

* `collect_data(result, **kws)` — the Collector — which computes
  `valid_keys = [k for k, v in kws.items() if v is not None]`, then tries
  `{ik: np.array([getattr(s, ik) for (i, s) in result]) for ik in valid_keys}`
  and, if anything raises, re-binds `result = convert_results(result)` and
  evaluates the same dictionary comprehension again, unguarded.

The embedding below models Python objects appearing as states (raw states or
`BeamState` instances) as values carrying an attribute map, Python attribute
access (`getattr`, which raises `AttributeError` for a missing name) as an
`Except`-valued lookup, exceptions as `Except Err`, and left-to-right
comprehension evaluation with exception propagation as the explicit
recursion `mapOrFail`.  `np.array` materializes a per-field list of values;
arrays are modelled as the lists themselves.

The external `BeamState` class lives in `flame_utils.core`.
-/

set_option autoImplicit false

namespace FlameUtils

/-- Attribute values exposed by states, modelled as integers. -/
abbrev Value := Int

/-- An attribute map: association list from attribute name to value. -/
abbrev AttrMap := List (String × Value)

/-- A location identifier (`i` component of a result pair), opaque. -/
abbrev Loc := String

/-- A Python exception, identified by its message. -/
abbrev Err := String

/-- A Python object appearing as the `state` component of a propagation
result entry: either a raw simulation state or a `BeamState` instance.
Either kind carries the attributes reachable by `getattr` on it (a raw
state may expose no attributes at all, via an empty map). -/
inductive Obj where
  | raw (a : AttrMap)
  | beam (a : AttrMap)
deriving DecidableEq, Repr

/-- The attributes reachable on an object. -/
def Obj.attrs : Obj → AttrMap
  | .raw a => a
  | .beam a => a

/-- Whether an object is a `BeamState` instance. -/
def Obj.isBeam : Obj → Bool
  | .raw _ => false
  | .beam _ => true

/-- Python `getattr(s, k)`: look up attribute `k` on `s`; a missing
attribute raises `AttributeError`. -/
def getattr (s : Obj) (k : String) : Except Err Value :=
  match s.attrs.lookup k with
  | some v => Except.ok v
  | none => Except.error ("AttributeError: " ++ k)

/-- A Python keyword-argument value as relevant to this module: `None`,
a boolean (`True`/`False`), or an integer (`0` is falsy but not `None`). -/
inductive PyVal where
  | none
  | bool (b : Bool)
  | int (n : Int)
deriving DecidableEq, Repr

/-- Modelled from the spec: the external `BeamState` constructor of
`flame_utils.core` (a collaborator of this module whose source is outside
`src/`).  Per the spec it is "an external, opaque value object exposing a
fixed, externally-defined set of named numeric attributes", constructed
"by wrapping a raw state via the external constructor", and normalization
"fails (propagates) whatever error the external constructor raises for a
malformed raw state".  It is therefore modelled as an arbitrary function
from the input object to either the attribute map of the constructed
`BeamState` or a raised error; theorems quantify over it. -/
abbrev Ctor := Obj → Except Err AttrMap

/-- Decidable equality on `Except`, for evaluating results on concrete
inputs. -/
instance {ε α : Type} [DecidableEq ε] [DecidableEq α] :
    DecidableEq (Except ε α) := fun x y =>
  match x, y with
  | Except.ok a, Except.ok b =>
    if h : a = b then isTrue (by rw [h]) else isFalse (by simp [h])
  | Except.error e, Except.error f =>
    if h : e = f then isTrue (by rw [h]) else isFalse (by simp [h])
  | Except.ok _, Except.error _ => isFalse (by simp)
  | Except.error _, Except.ok _ => isFalse (by simp)

/-- Left-to-right evaluation of `[f x for x in xs]` under exception
propagation: the first raised exception aborts the whole comprehension. -/
def mapOrFail {α β : Type} (f : α → Except Err β) : List α → Except Err (List β)
  | [] => Except.ok []
  | x :: xs =>
    match f x with
    | Except.error e => Except.error e
    | Except.ok y =>
      match mapOrFail f xs with
      | Except.error e => Except.error e
      | Except.ok ys => Except.ok (y :: ys)

/-- `convert_results(res, **kws)`:
`return [(i, BeamState(s)) for (i, s) in res]`.
The keyword arguments are accepted and never read. -/
def convert_results (ctor : Ctor) (res : List (Loc × Obj))
    (_kws : List (String × PyVal)) : Except Err (List (Loc × Obj)) :=
  mapOrFail (fun p =>
    match ctor p.2 with
    | Except.ok a => Except.ok (p.1, Obj.beam a)
    | Except.error e => Except.error e) res

/-- `valid_keys = [k for k, v in kws.items() if v is not None]`. -/
def valid_keys (kws : List (String × PyVal)) : List String :=
  (kws.filter (fun kv => decide (kv.2 ≠ PyVal.none))).map Prod.fst

/-- The dictionary comprehension
`{ik: np.array([getattr(s, ik) for (i, s) in result]) for ik in valid_keys}`
appearing twice in `collect_data`: outer loop over the requested keys,
inner loop over the result entries, any raised exception aborting the
whole expression.  The dictionary is modelled as an association list in
key-insertion order. -/
def tryCollect (result : List (Loc × Obj)) (keys : List String) :
    Except Err (List (String × List Value)) :=
  mapOrFail (fun ik =>
    match mapOrFail (fun p => getattr p.2 ik) result with
    | Except.ok vs => Except.ok (ik, vs)
    | Except.error e => Except.error e) keys

/-- `collect_data(result, **kws)`: filter the requested names, attempt the
direct-access extraction, and on any exception normalize the whole result
via `convert_results` and retry the same extraction, unguarded. -/
def collect_data (ctor : Ctor) (result : List (Loc × Obj))
    (kws : List (String × PyVal)) : Except Err (List (String × List Value)) :=
  match tryCollect result (valid_keys kws) with
  | Except.ok m => Except.ok m
  | Except.error _ =>
    match convert_results ctor result [] with
    | Except.ok result2 => tryCollect result2 (valid_keys kws)
    | Except.error e => Except.error e

/-! ### Helper lemmas shared by the claim theorems -/

theorem mapOrFail_nil {α β : Type} (f : α → Except Err β) :
    mapOrFail f [] = Except.ok [] := rfl

theorem mapOrFail_cons {α β : Type} (f : α → Except Err β) (x : α)
    (xs : List α) :
    mapOrFail f (x :: xs) =
      match f x with
      | Except.error e => Except.error e
      | Except.ok y =>
        match mapOrFail f xs with
        | Except.error e => Except.error e
        | Except.ok ys => Except.ok (y :: ys) := rfl

/-- When `f` succeeds on every element, the comprehension succeeds and
returns the pointwise results. -/
theorem mapOrFail_total {α β : Type} {f : α → Except Err β} {g : α → β} :
    ∀ {xs : List α}, (∀ x ∈ xs, f x = Except.ok (g x)) →
      mapOrFail f xs = Except.ok (xs.map g) := by
  intro xs
  induction xs with
  | nil => intro _; rfl
  | cons x xs ih =>
    intro h
    have hx : f x = Except.ok (g x) := h x (List.mem_cons_self x xs)
    have hxs : mapOrFail f xs = Except.ok (xs.map g) :=
      ih (fun y hy => h y (List.mem_cons_of_mem x hy))
    simp [mapOrFail_cons, hx, hxs]

/-- A successful comprehension implies `f` succeeded on every element. -/
theorem mapOrFail_ok_mem {α β : Type} {f : α → Except Err β} :
    ∀ {xs : List α} {ys : List β}, mapOrFail f xs = Except.ok ys →
      ∀ x ∈ xs, ∃ y, f x = Except.ok y := by
  intro xs
  induction xs with
  | nil => intro ys _ x hx; cases hx
  | cons a as ih =>
    intro ys h x hx
    rw [mapOrFail_cons] at h
    cases hfa : f a with
    | error e => rw [hfa] at h; cases h
    | ok y =>
      rw [hfa] at h
      cases hrest : mapOrFail f as with
      | error e => rw [hrest] at h; cases h
      | ok ys2 =>
        cases List.mem_cons.mp hx with
        | inl hxa => exact ⟨y, hxa ▸ hfa⟩
        | inr hxs => exact ih hrest x hxs

/-- A successful collection has exactly the requested keys, in order. -/
theorem tryCollect_ok_fst {result : List (Loc × Obj)} :
    ∀ {keys : List String} {m : List (String × List Value)},
      tryCollect result keys = Except.ok m → m.map Prod.fst = keys := by
  intro keys
  induction keys with
  | nil => intro m h; cases h; rfl
  | cons k ks ih =>
    intro m h
    rw [tryCollect, mapOrFail_cons] at h
    cases hk : mapOrFail (fun p => getattr p.2 k) result with
    | error e => rw [hk] at h; cases h
    | ok vs =>
      rw [hk] at h
      cases hrest : mapOrFail (fun ik =>
          match mapOrFail (fun p => getattr p.2 ik) result with
          | Except.ok vs => Except.ok (ik, vs)
          | Except.error e => Except.error e) ks with
      | error e => simp [hrest] at h
      | ok ms =>
        simp only [hrest] at h
        cases h
        have : tryCollect result ks = Except.ok ms := hrest
        simp [ih this]

/-- When every requested attribute is present on every entry, the direct
extraction succeeds with the looked-up values in input order. -/
theorem tryCollect_total {result : List (Loc × Obj)} :
    ∀ {keys : List String},
      (∀ p ∈ result, ∀ k ∈ keys, ((Obj.attrs p.2).lookup k).isSome) →
      tryCollect result keys = Except.ok (keys.map (fun k =>
        (k, result.map (fun p => ((Obj.attrs p.2).lookup k).getD 0)))) := by
  intro keys
  induction keys with
  | nil => intro _; rfl
  | cons k ks ih =>
    intro h
    have hinner : mapOrFail (fun p => getattr p.2 k) result =
        Except.ok (result.map (fun p => ((Obj.attrs p.2).lookup k).getD 0)) := by
      apply mapOrFail_total
      intro p hp
      have hs : ((Obj.attrs p.2).lookup k).isSome :=
        h p hp k (List.mem_cons_self k ks)
      rw [getattr]
      cases hl : (Obj.attrs p.2).lookup k with
      | none => rw [hl] at hs; cases hs
      | some v => simp [hl]
    have hrest : tryCollect result ks = Except.ok (ks.map (fun k =>
        (k, result.map (fun p => ((Obj.attrs p.2).lookup k).getD 0)))) :=
      ih (fun p hp k2 hk2 => h p hp k2 (List.mem_cons_of_mem k hk2))
    rw [tryCollect, mapOrFail_cons, hinner]
    rw [tryCollect] at hrest
    simp [hrest]

/-- A successful normalization implies the constructor accepted every
entry of the result. -/
theorem convert_ok_mem {ctor : Ctor} {res out : List (Loc × Obj)}
    (h : convert_results ctor res [] = Except.ok out) :
    ∀ p ∈ res, ∃ a, ctor p.2 = Except.ok a := by
  intro p hp
  have hmem := @mapOrFail_ok_mem (Loc × Obj) (Loc × Obj)
    (fun p =>
      match ctor p.2 with
      | Except.ok a => Except.ok (p.1, Obj.beam a)
      | Except.error e => Except.error e) res out h p hp
  obtain ⟨y, hy⟩ := hmem
  cases hc : ctor p.2 with
  | error e => simp [hc] at hy
  | ok a => exact ⟨a, rfl⟩

/-- When the constructor succeeds on every entry (with result described by
`f`), normalization succeeds, keeps each location, and wraps each state. -/
theorem convert_total {ctor : Ctor} {f : Obj → AttrMap}
    {res : List (Loc × Obj)} (kws : List (String × PyVal))
    (h : ∀ p ∈ res, ctor p.2 = Except.ok (f p.2)) :
    convert_results ctor res kws =
      Except.ok (res.map (fun p => (p.1, Obj.beam (f p.2)))) := by
  rw [convert_results]
  exact @mapOrFail_total (Loc × Obj) (Loc × Obj)
    (fun p =>
      match ctor p.2 with
      | Except.ok a => Except.ok (p.1, Obj.beam a)
      | Except.error e => Except.error e)
    (fun p => (p.1, Obj.beam (f p.2))) res
    (fun p hp => by simp only; rw [h p hp])

/-- Unfolding of `convert_results` on a cons cell, matching first on the
constructor call. -/
theorem convert_results_cons (ctor : Ctor) (p : Loc × Obj)
    (ps : List (Loc × Obj)) :
    convert_results ctor (p :: ps) [] =
      match ctor p.2 with
      | Except.error e => Except.error e
      | Except.ok a =>
        match convert_results ctor ps [] with
        | Except.error e => Except.error e
        | Except.ok l => Except.ok ((p.1, Obj.beam a) :: l) := by
  cases hc : ctor p.2 with
  | error e => simp [convert_results, mapOrFail_cons, hc]
  | ok a =>
    cases hr : convert_results ctor ps [] with
    | error e =>
      simp only [convert_results, mapOrFail_cons, hc] at hr ⊢
      rw [hr]
    | ok l =>
      simp only [convert_results, mapOrFail_cons, hc] at hr ⊢
      rw [hr]

/-- Unfolding of `tryCollect` on a cons of keys, matching first on the
inner per-entry comprehension. -/
theorem tryCollect_cons (result : List (Loc × Obj)) (k : String)
    (ks : List String) :
    tryCollect result (k :: ks) =
      match mapOrFail (fun p => getattr p.2 k) result with
      | Except.error e => Except.error e
      | Except.ok vs =>
        match tryCollect result ks with
        | Except.error e => Except.error e
        | Except.ok ms => Except.ok ((k, vs) :: ms) := by
  cases hv : mapOrFail (fun p => getattr p.2 k) result with
  | error e => simp [tryCollect, mapOrFail_cons, hv]
  | ok vs =>
    cases hr : tryCollect result ks with
    | error e =>
      simp only [tryCollect, mapOrFail_cons, hv] at hr ⊢
      rw [hr]
    | ok ms =>
      simp only [tryCollect, mapOrFail_cons, hv] at hr ⊢
      rw [hr]

/-- The per-key inner comprehension only reads the state components. -/
theorem mapOrFail_getattr_snd {k : String} :
    ∀ {r₁ r₂ : List (Loc × Obj)}, r₁.map Prod.snd = r₂.map Prod.snd →
      mapOrFail (fun p => getattr p.2 k) r₁ =
        mapOrFail (fun p => getattr p.2 k) r₂ := by
  intro r₁
  induction r₁ with
  | nil =>
    intro r₂ h
    cases r₂ with
    | nil => rfl
    | cons q qs => simp at h
  | cons p ps ih =>
    intro r₂ h
    cases r₂ with
    | nil => simp at h
    | cons q qs =>
      simp only [List.map_cons, List.cons.injEq] at h
      rw [mapOrFail_cons, mapOrFail_cons]
      rw [h.1, ih h.2]

/-- The direct extraction only reads the state components. -/
theorem tryCollect_snd {r₁ r₂ : List (Loc × Obj)}
    (h : r₁.map Prod.snd = r₂.map Prod.snd) :
    ∀ keys, tryCollect r₁ keys = tryCollect r₂ keys := by
  intro keys
  induction keys with
  | nil => rfl
  | cons k ks ih =>
    rw [tryCollect_cons, tryCollect_cons, mapOrFail_getattr_snd h, ih]

/-- Normalization of state-wise equal results errs identically, and on
success produces state-wise equal outputs. -/
theorem convert_snd {ctor : Ctor} :
    ∀ {r₁ r₂ : List (Loc × Obj)}, r₁.map Prod.snd = r₂.map Prod.snd →
      (∀ e, convert_results ctor r₁ [] = Except.error e →
          convert_results ctor r₂ [] = Except.error e) ∧
      (∀ o₁, convert_results ctor r₁ [] = Except.ok o₁ →
          ∃ o₂, convert_results ctor r₂ [] = Except.ok o₂ ∧
            o₁.map Prod.snd = o₂.map Prod.snd) := by
  intro r₁
  induction r₁ with
  | nil =>
    intro r₂ h
    cases r₂ with
    | nil => exact ⟨fun e he => he, fun o₁ ho => ⟨o₁, ho, rfl⟩⟩
    | cons q qs => simp at h
  | cons p ps ih =>
    intro r₂ h
    cases r₂ with
    | nil => simp at h
    | cons q qs =>
      simp only [List.map_cons, List.cons.injEq] at h
      obtain ⟨h1, h2⟩ := h
      constructor
      · intro e he
        rw [convert_results_cons] at he
        rw [convert_results_cons, ← h1]
        cases hc : ctor p.2 with
        | error e0 =>
          rw [hc] at he
          exact he
        | ok a =>
          rw [hc] at he
          cases hr : convert_results ctor ps [] with
          | error e1 =>
            rw [hr] at he
            cases he
            rw [(ih h2).1 _ hr]
          | ok l =>
            rw [hr] at he
            cases he
      · intro o₁ ho
        rw [convert_results_cons] at ho
        rw [convert_results_cons, ← h1]
        cases hc : ctor p.2 with
        | error e0 =>
          rw [hc] at ho
          cases ho
        | ok a =>
          rw [hc] at ho
          cases hr : convert_results ctor ps [] with
          | error e1 =>
            rw [hr] at ho
            cases ho
          | ok l =>
            rw [hr] at ho
            cases ho
            obtain ⟨l₂, hl₂, hsnd⟩ := (ih h2).2 l hr
            refine ⟨(q.1, Obj.beam a) :: l₂, ?_, ?_⟩
            · rw [hl₂]
            · simp [hsnd]

/-- Two entries of a keyword list with no duplicate names and the same
name are the same entry. -/
theorem nodup_fst_eq {l : List (String × PyVal)} :
    (l.map Prod.fst).Nodup → ∀ {a b : String × PyVal},
      a ∈ l → b ∈ l → a.1 = b.1 → a = b := by
  induction l with
  | nil => intro _ a b ha; cases ha
  | cons x xs ih =>
    intro hnd a b ha hb hab
    rw [List.map_cons, List.nodup_cons] at hnd
    cases List.mem_cons.mp ha with
    | inl hax =>
      cases List.mem_cons.mp hb with
      | inl hbx => rw [hax, hbx]
      | inr hbs =>
        exfalso
        exact hnd.1 (List.mem_map.mpr ⟨b, hbs, by rw [← hab, hax]⟩)
    | inr has =>
      cases List.mem_cons.mp hb with
      | inl hbx =>
        exfalso
        exact hnd.1 (List.mem_map.mpr ⟨a, has, by rw [hab, hbx]⟩)
      | inr hbs => exact ih hnd.2 has hbs hab

/-- The keys of any successful collection are exactly `valid_keys kws`. -/
theorem collect_data_ok_fst {ctor : Ctor} {result : List (Loc × Obj)}
    {kws : List (String × PyVal)} {m : List (String × List Value)}
    (h : collect_data ctor result kws = Except.ok m) :
    m.map Prod.fst = valid_keys kws := by
  rw [collect_data] at h
  cases h1 : tryCollect result (valid_keys kws) with
  | ok m0 =>
    rw [h1] at h
    simp only at h
    cases h
    exact tryCollect_ok_fst h1
  | error e =>
    rw [h1] at h
    cases h2 : convert_results ctor result [] with
    | error e2 => rw [h2] at h; simp at h
    | ok result2 =>
      rw [h2] at h
      simp only at h
      exact tryCollect_ok_fst h

/-- Mapping `Prod.fst` over key-indexed pairs recovers the keys. -/
theorem map_fst_pair {β : Type} (g : String → β) :
    ∀ l : List String, (l.map (fun k => (k, g k))).map Prod.fst = l := by
  intro l
  induction l with
  | nil => rfl
  | cons k ks ih => simp only [List.map_cons, ih]

/-! ### Claim theorems -/

/-- C5: for a propagation result every entry of which the `BeamState`
constructor accepts (producing attributes `f`), `convert_results` succeeds
and returns a sequence of the same length that keeps each location in
order and replaces each state by the `BeamState` constructed from it. -/
theorem C5_convert_results_spec (ctor : Ctor) (f : Obj → AttrMap)
    (res : List (Loc × Obj)) (kws : List (String × PyVal))
    (h : ∀ p ∈ res, ctor p.2 = Except.ok (f p.2)) :
    convert_results ctor res kws =
      Except.ok (res.map (fun p => (p.1, Obj.beam (f p.2)))) ∧
    (res.map (fun p => (p.1, Obj.beam (f p.2)))).length = res.length ∧
    (res.map (fun p => (p.1, Obj.beam (f p.2)))).map Prod.fst =
      res.map Prod.fst := by
  refine ⟨convert_total kws h, ?_, ?_⟩
  · simp
  · simp

/-- Witness for C5 at a concrete two-entry result and constructor. -/
theorem C5_convert_results_spec_witness :
    convert_results (fun s => Except.ok (("x0", (1 : Value)) :: Obj.attrs s))
        [("m1", Obj.raw [("a", 0)]), ("m2", Obj.raw [])] [] =
      Except.ok ([("m1", Obj.raw [("a", 0)]), ("m2", Obj.raw [])].map
        (fun p => (p.1, Obj.beam (("x0", (1 : Value)) :: Obj.attrs p.2)))) ∧
    ([("m1", Obj.raw [("a", 0)]), ("m2", Obj.raw [])].map
        (fun p => (p.1, Obj.beam (("x0", (1 : Value)) :: Obj.attrs p.2)))).length =
      [("m1", Obj.raw [("a", 0)]), ("m2", Obj.raw [])].length ∧
    ([("m1", Obj.raw [("a", 0)]), ("m2", Obj.raw [])].map
        (fun p => (p.1, Obj.beam (("x0", (1 : Value)) :: Obj.attrs p.2)))).map Prod.fst =
      [("m1", Obj.raw [("a", 0)]), ("m2", Obj.raw [])].map Prod.fst :=
  C5_convert_results_spec (fun s => Except.ok (("x0", (1 : Value)) :: Obj.attrs s))
    (fun s => ("x0", (1 : Value)) :: Obj.attrs s)
    [("m1", Obj.raw [("a", 0)]), ("m2", Obj.raw [])] [] (by decide)

/-- C8: `convert_results` accepts arbitrary extra keyword options and they
have no effect: the output equals the output with no options. -/
theorem C8_convert_results_ignores_kws (ctor : Ctor)
    (res : List (Loc × Obj)) (kws : List (String × PyVal)) :
    convert_results ctor res kws = convert_results ctor res [] := rfl

/-- C2: for an already-normalized result and a non-empty requested-name
set every name of which is an attribute of every entry, `collect_data`
returns the mapping whose keys are exactly the requested names and whose
arrays list, in input order, the attribute values of every entry (so each
has the input's length). -/
theorem C2_collect_data_normalized (ctor : Ctor)
    (result : List (Loc × Obj)) (kws : List (String × PyVal))
    (hbeam : ∀ p ∈ result, Obj.isBeam p.2 = true)
    (hne : valid_keys kws ≠ [])
    (hvocab : ∀ p ∈ result, ∀ k ∈ valid_keys kws,
      ((Obj.attrs p.2).lookup k).isSome) :
    collect_data ctor result kws =
      Except.ok ((valid_keys kws).map (fun k =>
        (k, result.map (fun p => ((Obj.attrs p.2).lookup k).getD 0)))) ∧
    ((valid_keys kws).map (fun k =>
        (k, result.map (fun p => ((Obj.attrs p.2).lookup k).getD 0)))).map
        Prod.fst = valid_keys kws ∧
    ∀ e ∈ (valid_keys kws).map (fun k =>
        (k, result.map (fun p => ((Obj.attrs p.2).lookup k).getD 0))),
      e.2.length = result.length := by
  have ht := tryCollect_total hvocab
  refine ⟨?_, ?_, ?_⟩
  · rw [collect_data, ht]
  · exact map_fst_pair _ _
  · intro e he
    obtain ⟨k, hk, hke⟩ := List.mem_map.mp he
    rw [← hke]
    simp

/-- Witness for C2 at a two-entry normalized result with two requests. -/
theorem C2_collect_data_normalized_witness :
    collect_data (fun s => Except.ok (Obj.attrs s))
        [("m1", Obj.beam [("x0", 1), ("y0", 2)]),
         ("m2", Obj.beam [("x0", 3), ("y0", 4)])]
        [("x0", PyVal.bool true), ("y0", PyVal.bool true)] =
      Except.ok ((valid_keys [("x0", PyVal.bool true), ("y0", PyVal.bool true)]).map
        (fun k => (k, [("m1", Obj.beam [("x0", 1), ("y0", 2)]),
                       ("m2", Obj.beam [("x0", 3), ("y0", 4)])].map
          (fun p => ((Obj.attrs p.2).lookup k).getD 0)))) ∧
    ((valid_keys [("x0", PyVal.bool true), ("y0", PyVal.bool true)]).map
        (fun k => (k, [("m1", Obj.beam [("x0", 1), ("y0", 2)]),
                       ("m2", Obj.beam [("x0", 3), ("y0", 4)])].map
          (fun p => ((Obj.attrs p.2).lookup k).getD 0)))).map Prod.fst =
      valid_keys [("x0", PyVal.bool true), ("y0", PyVal.bool true)] ∧
    ∀ e ∈ (valid_keys [("x0", PyVal.bool true), ("y0", PyVal.bool true)]).map
        (fun k => (k, [("m1", Obj.beam [("x0", 1), ("y0", 2)]),
                       ("m2", Obj.beam [("x0", 3), ("y0", 4)])].map
          (fun p => ((Obj.attrs p.2).lookup k).getD 0))),
      e.2.length = [("m1", Obj.beam [("x0", 1), ("y0", 2)]),
                    ("m2", Obj.beam [("x0", 3), ("y0", 4)])].length :=
  C2_collect_data_normalized (fun s => Except.ok (Obj.attrs s))
    [("m1", Obj.beam [("x0", 1), ("y0", 2)]),
     ("m2", Obj.beam [("x0", 3), ("y0", 4)])]
    [("x0", PyVal.bool true), ("y0", PyVal.bool true)]
    (by decide) (by decide) (by decide)

/-- C1: when the entries are raw states the constructor accepts (so that
normalization yields `result2`), the direct pass fails on them, and the
post-normalization extraction yields a mapping, `collect_data` on the raw
result and `collect_data` on the pre-normalized result yield that same
mapping: the fallback path reaches the same outcome. -/
theorem C1_collect_fallback_idempotent (ctor : Ctor)
    (result result2 : List (Loc × Obj)) (kws : List (String × PyVal))
    (hraw : ∀ p ∈ result, Obj.isBeam p.2 = false)
    (hconv : convert_results ctor result [] = Except.ok result2)
    (e : Err)
    (hfail : tryCollect result (valid_keys kws) = Except.error e)
    (m : List (String × List Value))
    (hok : tryCollect result2 (valid_keys kws) = Except.ok m) :
    collect_data ctor result kws = Except.ok m ∧
    collect_data ctor result2 kws = Except.ok m := by
  constructor
  · rw [collect_data, hfail, hconv]
    show tryCollect result2 (valid_keys kws) = Except.ok m
    exact hok
  · rw [collect_data, hok]

/-- Witness for C1: a raw result lacking `x0`, a constructor that supplies
it; both the fallback and the pre-normalized call collect the same map. -/
theorem C1_collect_fallback_idempotent_witness :
    collect_data (fun _ => Except.ok [("x0", 9)])
        [("m1", Obj.raw [])] [("x0", PyVal.bool true)] =
      Except.ok [("x0", [9])] ∧
    collect_data (fun _ => Except.ok [("x0", 9)])
        [("m1", Obj.beam [("x0", 9)])] [("x0", PyVal.bool true)] =
      Except.ok [("x0", [9])] :=
  C1_collect_fallback_idempotent (fun _ => Except.ok [("x0", 9)])
    [("m1", Obj.raw [])] [("m1", Obj.beam [("x0", 9)])]
    [("x0", PyVal.bool true)] (by decide) (by decide)
    "AttributeError: x0" (by decide) [("x0", [9])] (by decide)

/-- C3 counterexample: an option supplied with the falsy non-null value
`False` is NOT excluded: `x0=False` stays in `valid_keys` and the output
mapping contains the key `x0`, contrary to the claimed exclusion. -/
theorem C3_falsy_not_excluded_cex :
    valid_keys [("x0", PyVal.bool false)] = ["x0"] ∧
    collect_data (fun s => Except.ok (Obj.attrs s))
        [("m1", Obj.beam [("x0", 5)])] [("x0", PyVal.bool false)] =
      Except.ok [("x0", [5])] ∧
    "x0" ∈ ([("x0", ([5] : List Value))].map Prod.fst) := by
  refine ⟨rfl, by decide, by decide⟩

/-- C3 (amended): an option supplied with any non-null value — falsy
values such as `False` or `0` included — is treated as requested; only a
`None` value excludes a name.  The keys of any successful `collect_data`
mapping are exactly the names supplied with a non-null value, in order. -/
theorem C3_nonnull_kept (ctor : Ctor) (result : List (Loc × Obj))
    (kws : List (String × PyVal)) (m : List (String × List Value))
    (h : collect_data ctor result kws = Except.ok m) :
    m.map Prod.fst =
      (kws.filter (fun kv => decide (kv.2 ≠ PyVal.none))).map Prod.fst :=
  collect_data_ok_fst h

/-- Witness for C3 (amended): `x0=False` and `z=0` are kept, `y0=None`
is dropped. -/
theorem C3_nonnull_kept_witness :
    ([("x0", ([5] : List Value)), ("z", [7])].map Prod.fst) =
      (([("x0", PyVal.bool false), ("y0", PyVal.none),
         ("z", PyVal.int 0)]).filter
        (fun kv => decide (kv.2 ≠ PyVal.none))).map Prod.fst :=
  C3_nonnull_kept (fun s => Except.ok (Obj.attrs s))
    [("m1", Obj.beam [("x0", 5), ("z", 7)])]
    [("x0", PyVal.bool false), ("y0", PyVal.none), ("z", PyVal.int 0)]
    [("x0", [5]), ("z", [7])] (by decide)

/-- C4: a field name supplied with `None` is excluded from a successful
output mapping (keyword names being distinct, as Python guarantees), even
when other requested names appear there. -/
theorem C4_none_request_excluded (ctor : Ctor) (result : List (Loc × Obj))
    (kws : List (String × PyVal)) (k : String)
    (hnodup : (kws.map Prod.fst).Nodup)
    (hmem : (k, PyVal.none) ∈ kws)
    (m : List (String × List Value))
    (h : collect_data ctor result kws = Except.ok m) :
    k ∉ m.map Prod.fst := by
  rw [collect_data_ok_fst h]
  intro hk
  rw [valid_keys] at hk
  obtain ⟨kv, hkv, hfst⟩ := List.mem_map.mp hk
  have hkvmem : kv ∈ kws := List.mem_of_mem_filter hkv
  have hne : kv.2 ≠ PyVal.none := by
    have hp := List.of_mem_filter hkv
    simpa using hp
  have hkv2 : kv = (k, PyVal.none) :=
    nodup_fst_eq hnodup hkvmem hmem hfst
  rw [hkv2] at hne
  exact hne rfl

/-- Witness for C4: `x0=None` is absent from the output while the truthy
`y0=True` appears. -/
theorem C4_none_request_excluded_witness :
    "x0" ∉ ([("y0", ([3] : List Value))].map Prod.fst) ∧
    "y0" ∈ ([("y0", ([3] : List Value))].map Prod.fst) :=
  ⟨C4_none_request_excluded (fun s => Except.ok (Obj.attrs s))
      [("m1", Obj.beam [("y0", 3)])]
      [("x0", PyVal.none), ("y0", PyVal.bool true)] "x0"
      (by decide) (by decide) [("y0", [3])] (by decide),
   by decide⟩

/-- C6: after the first (direct-access) pass fails — the only suppressed
error — an error raised by normalization, or by the second pass after a
successful normalization, propagates unchanged as `collect_data`'s
result, so no mapping (partial or otherwise) is returned. -/
theorem C6_error_propagation (ctor : Ctor) (result : List (Loc × Obj))
    (kws : List (String × PyVal)) (e₁ : Err)
    (hfail : tryCollect result (valid_keys kws) = Except.error e₁) :
    (∀ e₂, convert_results ctor result [] = Except.error e₂ →
        collect_data ctor result kws = Except.error e₂) ∧
    (∀ result2 e₃, convert_results ctor result [] = Except.ok result2 →
        tryCollect result2 (valid_keys kws) = Except.error e₃ →
        collect_data ctor result kws = Except.error e₃) := by
  constructor
  · intro e₂ hconv
    rw [collect_data, hfail, hconv]
  · intro result2 e₃ hconv hsnd
    rw [collect_data, hfail, hconv]
    show tryCollect result2 (valid_keys kws) = Except.error e₃
    exact hsnd

/-- Witness for C6: a failing constructor's `TypeError` propagates; an
unknown attribute after successful normalization propagates as the second
pass's `AttributeError`. -/
theorem C6_error_propagation_witness :
    collect_data (fun _ => Except.error "TypeError")
        [("m1", Obj.raw [])] [("x0", PyVal.bool true)] =
      Except.error "TypeError" ∧
    collect_data (fun _ => Except.ok [("y0", 1)])
        [("m1", Obj.raw [])] [("x0", PyVal.bool true)] =
      Except.error "AttributeError: x0" :=
  ⟨(C6_error_propagation (fun _ => Except.error "TypeError")
      [("m1", Obj.raw [])] [("x0", PyVal.bool true)]
      "AttributeError: x0" (by decide)).1 "TypeError" (by decide),
   (C6_error_propagation (fun _ => Except.ok [("y0", 1)])
      [("m1", Obj.raw [])] [("x0", PyVal.bool true)]
      "AttributeError: x0" (by decide)).2
     [("m1", Obj.beam [("y0", 1)])] "AttributeError: x0"
     (by decide) (by decide)⟩

/-- C7: with zero requested fields (no options or all `None`)
`collect_data` returns the empty mapping for every result and every
constructor, without reading any entry; and on an empty result it returns
one empty array per requested name. -/
theorem C7_empty_cases (ctor : Ctor) (result : List (Loc × Obj))
    (kws : List (String × PyVal)) :
    (valid_keys kws = [] → collect_data ctor result kws = Except.ok []) ∧
    collect_data ctor [] kws =
      Except.ok ((valid_keys kws).map (fun k => (k, ([] : List Value)))) := by
  constructor
  · intro h
    rw [collect_data, h]
    rfl
  · have ht : tryCollect ([] : List (Loc × Obj)) (valid_keys kws) =
        Except.ok ((valid_keys kws).map (fun k => (k, ([] : List Value)))) := by
      have htot := @tryCollect_total [] (valid_keys kws)
        (fun p hp => absurd hp (List.not_mem_nil p))
      simpa using htot
    rw [collect_data, ht]

/-- Witness for C7: an all-`None` request on a raw result yields `{}`
even though the state has no attributes and the constructor fails; an
empty result with two requests yields two empty arrays. -/
theorem C7_empty_cases_witness :
    collect_data (fun _ => Except.error "TypeError")
        [("m1", Obj.raw [])] [("x0", PyVal.none)] = Except.ok [] ∧
    collect_data (fun _ => Except.error "TypeError") []
        [("x0", PyVal.bool true), ("y0", PyVal.bool true)] =
      Except.ok ((valid_keys [("x0", PyVal.bool true),
        ("y0", PyVal.bool true)]).map (fun k => (k, ([] : List Value)))) :=
  ⟨(C7_empty_cases (fun _ => Except.error "TypeError")
      [("m1", Obj.raw [])] [("x0", PyVal.none)]).1 (by decide),
   (C7_empty_cases (fun _ => Except.error "TypeError") []
      [("x0", PyVal.bool true), ("y0", PyVal.bool true)]).2⟩

/-- C9: when the direct pass fails, the fallback normalizes every entry,
already-normalized `BeamState` entries included: if `collect_data`
succeeds on that path for a result containing a `BeamState` entry, the
constructor must have accepted that `BeamState` as its input. -/
theorem C9_fallback_reconverts_beam (ctor : Ctor)
    (result : List (Loc × Obj)) (kws : List (String × PyVal))
    (l : Loc) (a : AttrMap) (hmem : (l, Obj.beam a) ∈ result)
    (e : Err)
    (hfail : tryCollect result (valid_keys kws) = Except.error e)
    (m : List (String × List Value))
    (hok : collect_data ctor result kws = Except.ok m) :
    ∃ b, ctor (Obj.beam a) = Except.ok b := by
  rw [collect_data, hfail] at hok
  cases hconv : convert_results ctor result [] with
  | error e2 => rw [hconv] at hok; simp at hok
  | ok result2 => exact convert_ok_mem hconv (l, Obj.beam a) hmem

/-- Witness for C9: a mixed raw/`BeamState` result whose direct pass
fails; the collection succeeds because the constructor also accepts the
`BeamState` entry. -/
theorem C9_fallback_reconverts_beam_witness :
    ∃ b, (Except.ok (("x0", (7 : Value)) :: Obj.attrs (Obj.beam [("x0", 1)])) :
        Except Err AttrMap) = Except.ok b :=
  C9_fallback_reconverts_beam
    (fun s => Except.ok (("x0", (7 : Value)) :: Obj.attrs s))
    [("m1", Obj.raw []), ("m2", Obj.beam [("x0", 1)])]
    [("x0", PyVal.bool true)] "m2" [("x0", 1)] (by decide)
    "AttributeError: x0" (by decide) [("x0", [7, 7])] (by decide)

/-- C10: `collect_data` never reads the location components: results with
pairwise equal states and arbitrary locations collect identically. -/
theorem C10_locations_irrelevant (ctor : Ctor)
    (r₁ r₂ : List (Loc × Obj)) (kws : List (String × PyVal))
    (h : r₁.map Prod.snd = r₂.map Prod.snd) :
    collect_data ctor r₁ kws = collect_data ctor r₂ kws := by
  rw [collect_data, collect_data, tryCollect_snd h]
  cases h1 : tryCollect r₂ (valid_keys kws) with
  | ok m => rfl
  | error e =>
    cases h2 : convert_results ctor r₁ [] with
    | error e2 =>
      rw [(convert_snd h).1 e2 h2]
    | ok o₁ =>
      obtain ⟨o₂, ho₂, hsnd⟩ := (convert_snd h).2 o₁ h2
      rw [ho₂]
      show tryCollect o₁ (valid_keys kws) = tryCollect o₂ (valid_keys kws)
      exact tryCollect_snd hsnd _

/-- Witness for C10: same states under different monitor labels collect
to the same mapping. -/
theorem C10_locations_irrelevant_witness :
    collect_data (fun s => Except.ok (Obj.attrs s))
        [("m1", Obj.beam [("x0", 5)]), ("m2", Obj.beam [("x0", 6)])]
        [("x0", PyVal.bool true)] =
      collect_data (fun s => Except.ok (Obj.attrs s))
        [("p7", Obj.beam [("x0", 5)]), ("", Obj.beam [("x0", 6)])]
        [("x0", PyVal.bool true)] :=
  C10_locations_irrelevant (fun s => Except.ok (Obj.attrs s))
    [("m1", Obj.beam [("x0", 5)]), ("m2", Obj.beam [("x0", 6)])]
    [("p7", Obj.beam [("x0", 5)]), ("", Obj.beam [("x0", 6)])]
    [("x0", PyVal.bool true)] (by decide)

end FlameUtils
